import Mathlib

/-!
Shallow embedding of the errsole-sqlite storage adapter (src/lib/index.js)
and verification of its specification claims.

Modelling conventions:
* Timestamps are integers (milliseconds since the epoch).  The source stores
  ISO-8601 strings whose lexicographic order agrees with chronological order,
  so integer comparison is a faithful abstraction of the `timestamp < ?`
  comparisons in the SQL.
* The `errsole_logs` table is a list of rows kept in insertion order; SQLite
  AUTOINCREMENT identities are modelled by a `nextId` counter that assigns
  strictly increasing ids in the order rows appear in a multi-row INSERT.
* A fallible sqlite3 statement execution is modelled by an explicit
  `Option DbError` parameter: `none` means the callback receives no error.
-/

namespace ErrsoleSQLite

/-- An error surfaced by the sqlite3 driver callback. -/
inductive DbError
  | storage
deriving DecidableEq, Repr

/-- One log entry as submitted to `postLogs` (hostname, pid, source, level,
message, meta — the six columns bound by the insert). -/
structure LogEntry where
  hostname : String
  pid : Int
  source : String
  level : String
  message : String
  meta : String
deriving DecidableEq, Repr

/-- A stored row of the `errsole_logs` table: the auto-assigned integer
identity, the (server-assigned) timestamp and the inserted payload. -/
structure LogRow where
  id : Nat
  timestamp : Int
  entry : LogEntry
deriving DecidableEq, Repr

/-- The `errsole_logs` table: rows in insertion order plus the AUTOINCREMENT
counter for the next identity. -/
structure LogsDb where
  nextId : Nat
  rows : List LogRow
deriving DecidableEq, Repr

/-- An empty `errsole_logs` table. -/
def emptyLogsDb : LogsDb := ⟨1, []⟩

/-- A parameter value bound into a SQL statement. -/
inductive SqlValue
  | s (v : String)
  | i (v : Int)
deriving DecidableEq, Repr

/-- The six statement parameters contributed by one log entry, in the order
built by `postLogs` (`[logEntry.hostname, logEntry.pid, logEntry.source,
logEntry.level, logEntry.message, logEntry.meta]`). -/
def entryParams (e : LogEntry) : List SqlValue :=
  [.s e.hostname, .i e.pid, .s e.source, .s e.level, .s e.message, .s e.meta]

/-- Model of `values.flat()` from `postLogs`: the parameter list of the multi-row
insert, entry after entry in submission order. -/
def flattenedValues (entries : List LogEntry) : List SqlValue :=
  (entries.map entryParams).flatten

/-- Model of `placeholders` from `postLogs`: one `(?, ?, ?, ?, ?, ?)` group per entry,
joined by commas. -/
def placeholders (entries : List LogEntry) : String :=
  String.intercalate "," (entries.map fun _ => "(?, ?, ?, ?, ?, ?)")

/-- The SQL text built by `postLogs` (src/lib/index.js line 130): a plain
multi-row INSERT into `errsole_logs`. -/
def postLogsQuery (entries : List LogEntry) : String :=
  "INSERT INTO errsole_logs (hostname, pid, source, level, message, meta) VALUES "
    ++ placeholders entries

/-- Row construction performed by executing the multi-row insert: SQLite
assigns consecutive AUTOINCREMENT identities to the VALUES groups in the
order they appear in the statement, and stamps each row with the current
time (`timestamp DATETIME DEFAULT CURRENT_TIMESTAMP`). -/
def insertRows (nextId : Nat) (now : Int) : List LogEntry → List LogRow
  | [] => []
  | e :: es => ⟨nextId, now, e⟩ :: insertRows (nextId + 1) now es

/-- Effect of a successful `postLogs` insert on the `errsole_logs` table. -/
def postLogsApply (db : LogsDb) (entries : List LogEntry) (now : Int) : LogsDb :=
  ⟨db.nextId + entries.length, db.rows ++ insertRows db.nextId now entries⟩

/-- Outcome of one `postLogs` call once the readiness poll has passed:
the table afterwards, the promise result, and how many database statements
the call issued. -/
structure PostLogsOutcome where
  db : LogsDb
  result : Except DbError Unit
  dbStatements : Nat
deriving Repr

/-- Model of `postLogs` after the readiness poll (src/lib/index.js lines 119-139):
it issues exactly one `db.run` with the multi-row insert; the callback
error, if any, is propagated to the caller by rejecting the promise. -/
def postLogsRun (db : LogsDb) (entries : List LogEntry) (now : Int)
    (runErr : Option DbError) : PostLogsOutcome :=
  match runErr with
  | some e => ⟨db, .error e, 1⟩
  | none => ⟨postLogsApply db entries now, .ok (), 1⟩

/-! ### Schema initialisation and the readiness poll (claim C3) -/

/-- Model of `defineTables` (src/lib/index.js lines 64-81): the promise resolves and
`isConnectionInProgress` is cleared only when the callback of every
table-creation statement reported no error; any error rejects instead. -/
def defineTablesSucceeds (results : List (Option DbError)) : Bool :=
  results.all fun r => r = none

/-- The `isConnectionInProgress` flag after `defineTables` has settled:
still `true` unless every creation statement succeeded. -/
def isConnectionInProgressAfter (results : List (Option DbError)) : Bool :=
  !(defineTablesSucceeds results)

/-- The polling loop of `postLogs` (`while (this.isConnectionInProgress)
await sleep(100)`): `ready t` is the value of `!isConnectionInProgress`
observed at poll round `t`; the function returns the round at which the
loop exits and the insert is issued, or `none` if fuel runs out. -/
def waitFrom (ready : Nat → Bool) : Nat → Nat → Option Nat
  | _, 0 => none
  | t, fuel + 1 => if ready t then some t else waitFrom ready (t + 1) fuel

/-- The poll round at which `postLogs` issues its insert. -/
def postLogsInsertRound (ready : Nat → Bool) (fuel : Nat) : Option Nat :=
  waitFrom ready 0 fuel

/-- Total milliseconds slept before the insert: one fixed 100 ms sleep per
round in which the flag was still set. -/
def postLogsSleepMs (ready : Nat → Bool) (fuel : Nat) : Option Nat :=
  (postLogsInsertRound ready fuel).map (100 * ·)

/-- Whether `postLogs` has issued its insert statement by the end of poll
round `t`. -/
def insertIssuedBy (ready : Nat → Bool) (fuel t : Nat) : Bool :=
  match postLogsInsertRound ready fuel with
  | some n => n ≤ t
  | none => false

/-! ### Retention sweep (`deleteExpiredLogs`, src/lib/index.js lines 296-334) -/

/-- Constant `logsTTLDefault` from `deleteExpiredLogs`: 30 days in milliseconds. -/
def logsTTLDefault : Int := 30 * 24 * 60 * 60 * 1000

/-- JavaScript `parseInt(s, 10)`: skip leading whitespace, accept an optional
sign, then read the longest leading run of decimal digits; `none` models the
NaN result when no digit is found. -/
def parseIntJs (s : String) : Option Int :=
  let cs := s.toList.dropWhile fun c => c = ' ' ∨ c = '\t' ∨ c = '\n' ∨ c = '\r'
  let signed : Int × List Char :=
    match cs with
    | '-' :: t => (-1, t)
    | '+' :: t => (1, t)
    | t => (1, t)
  let ds := signed.2.takeWhile Char.isDigit
  if ds.isEmpty then none
  else some (signed.1 * (ds.foldl (fun a c => a * 10 + (c.toNat - 48)) 0 : Nat))

/-- TTL selection in `deleteExpiredLogs` (lines 304-308): start from the
default; if the config row exists and its `value` is truthy (a non-empty
string), overwrite with `parseInt(value, 10)` — which is NaN (`none`) when
the value is unparsable.  A `none` result makes the subsequent
`new Date(Date.now() - logsTTL).toISOString()` throw. -/
def sweepTTL (config : Option String) : Option Int :=
  match config with
  | none => some logsTTLDefault
  | some v => if v = "" then some logsTTLDefault else parseIntJs v

/-- The `timestamp < ?` predicate of the bounded delete, against the cutoff
`now - logsTTL`. -/
def expiredRow (cutoff : Int) (r : LogRow) : Bool :=
  r.timestamp < cutoff

/-- Effect of `DELETE FROM errsole_logs WHERE id IN (SELECT id FROM
errsole_logs WHERE timestamp < ? LIMIT 1000)` on the stored rows: SQLite
evaluates the unordered, unindexed subquery as a table scan in rowid order,
so the statement removes the first `k` expired rows in table order
(`k = 1000` in the source). -/
def removeFirstExpired (cutoff : Int) : Nat → List LogRow → List LogRow
  | _, [] => []
  | 0, rows => rows
  | k + 1, r :: rs =>
    if expiredRow cutoff r then removeFirstExpired cutoff k rs
    else r :: removeFirstExpired cutoff (k + 1) rs

/-- The rows removed by one delete chunk: the first up-to-1000 expired rows
in table order. -/
def chunkDeleted (cutoff : Int) (rows : List LogRow) : List LogRow :=
  (rows.filter (expiredRow cutoff)).take 1000

/-- The do-while loop of `deleteExpiredLogs` (lines 312-328), fuel-indexed:
run one delete chunk; repeat while the chunk deleted more than zero rows.
Returns the list of per-chunk deleted rows, one element per executed delete
statement (the final element is the empty chunk that ends the loop). -/
def sweepLoopFuel (cutoff : Int) : Nat → List LogRow → List (List LogRow)
  | 0, _ => []
  | fuel + 1, rows =>
    let d := chunkDeleted cutoff rows
    if d.isEmpty then [d]
    else d :: sweepLoopFuel cutoff fuel (removeFirstExpired cutoff 1000 rows)

/-- The chunks executed by one sweep over `rows`: `rows.length + 1` units of
fuel always exceed the number of iterations the do-while loop can make,
since every non-final chunk removes at least one row. -/
def sweepChunks (cutoff : Int) (rows : List LogRow) : List (List LogRow) :=
  sweepLoopFuel cutoff (rows.length + 1) rows

/-- The per-statement deleted-row counts of one sweep (`this.changes` of each
delete statement, in execution order). -/
def sweepChunkCounts (cutoff : Int) (rows : List LogRow) : List Nat :=
  (sweepChunks cutoff rows).map List.length

/-- The rows remaining after one full sweep loop. -/
def sweepRemaining (cutoff : Int) (rows : List LogRow) : List LogRow :=
  rows.filter fun r => !(expiredRow cutoff r)

/-- Input state of one `deleteExpiredLogs` call: the re-entrancy flag
`deleteExpiredLogsRunning`, the stored `logsTTL` config value (`none` when
the row is absent), the table contents, and an injected failure for the
`failAt`-th delete statement (0-based) to model a sqlite3 error. -/
structure SweepIn where
  running : Bool
  config : Option String
  rows : List LogRow
  failAt : Option Nat
deriving Repr

/-- Observable outcome of one `deleteExpiredLogs` call: the flag at return,
the table afterwards, the number of config reads and delete statements
issued, and whether the body ended in the catch branch. -/
structure SweepOut where
  running : Bool
  rows : List LogRow
  configReads : Nat
  deleteStatements : Nat
  errored : Bool
deriving Repr

/-- The fallible chunk loop: executes delete statements in order, stopping
early (with `errored := true`) if the injected failure index is reached.
Returns remaining rows, number of delete statements issued, and the error
flag.  A failed statement is still an issued statement but deletes
nothing. -/
def sweepLoopWithFailure (cutoff : Int) (failAt : Option Nat) :
    Nat → Nat → List LogRow → List LogRow × Nat × Bool
  | 0, _, rows => (rows, 0, false)
  | fuel + 1, idx, rows =>
    if failAt = some idx then (rows, 1, true)
    else
      let d := chunkDeleted cutoff rows
      if d.isEmpty then (rows, 1, false)
      else
        let rest := sweepLoopWithFailure cutoff failAt fuel (idx + 1)
          (removeFirstExpired cutoff 1000 rows)
        (rest.1, rest.2.1 + 1, rest.2.2)

/-- Model of `deleteExpiredLogs` (src/lib/index.js lines 296-334).  If the running
flag is already set, return at once: no query is issued and the flag is
untouched.  Otherwise set the flag, read the TTL config, compute the cutoff
(a NaN TTL makes `toISOString` throw, landing in the catch branch with no
delete issued), run the chunk loop, and — in the `finally` — clear the flag
on every terminating path. -/
def deleteExpiredLogs (s : SweepIn) (now : Int) : SweepOut :=
  if s.running then ⟨s.running, s.rows, 0, 0, false⟩
  else
    match sweepTTL s.config with
    | none => ⟨false, s.rows, 1, 0, true⟩
    | some ttl =>
      let cutoff := now - ttl
      let r := sweepLoopWithFailure cutoff s.failAt (s.rows.length + 1) 0 s.rows
      ⟨false, r.1, 1, r.2.1, r.2.2⟩

/-! ### `updateUserByEmail` (src/lib/index.js lines 406-423) -/

/-- A stored row of `errsole_users`.  SQLite columns are dynamically typed,
so every stored value is modelled by its textual content (the integer id is
rendered as its decimal text); claim C10 only concerns whether values
change. -/
structure UserRow where
  id : String
  name : String
  email : String
  hashed_password : String
  role : String
deriving DecidableEq, Repr

/-- ASCII lowering of one character (SQLite identifier comparison is
case-insensitive for ASCII letters). -/
def lowerChar (c : Char) : Char :=
  if 65 ≤ c.toNat ∧ c.toNat ≤ 90 then Char.ofNat (c.toNat + 32) else c

/-- ASCII lowering of an identifier. -/
def lowerAscii (s : String) : String :=
  String.mk (s.toList.map lowerChar)

/-- One `SET key = ?` assignment applied to a user row.  SQLite resolves
column identifiers case-insensitively, so the key is lowercased before
matching a column; an unknown column makes the whole UPDATE statement fail
(`no such column`), modelled by `none`. -/
def setColumn (u : UserRow) (key v : String) : Option UserRow :=
  if lowerAscii key = "id" then some { u with id := v }
  else if lowerAscii key = "name" then some { u with name := v }
  else if lowerAscii key = "email" then some { u with email := v }
  else if lowerAscii key = "hashed_password" then some { u with hashed_password := v }
  else if lowerAscii key = "role" then some { u with role := v }
  else none

/-- The full SET clause applied left to right.  Keys must be plain column
identifiers; this model does not parse compound SQL expressions. -/
def applySetClause (u : UserRow) : List (String × String) → Option UserRow
  | [] => some u
  | (k, v) :: rest => (setColumn u k v).bind fun u2 => applySetClause u2 rest

/-- The `restrictedFields.forEach(field => delete updates[field])` step:
JavaScript property deletion removes exactly the keys `id` and
`hashed_password`, compared case-sensitively. -/
def stripRestricted (updates : List (String × String)) : List (String × String) :=
  updates.filter fun kv => kv.1 ≠ "id" ∧ kv.1 ≠ "hashed_password"

/-- Model of `updateUserByEmail` restricted to its effect on the matched user row:
reject when no updates are supplied; strip the restricted keys; an empty
surviving SET clause yields invalid SQL (the statement rejects, `none`);
otherwise apply the assignments.  `none` means the stored row is
unchanged because the call rejected. -/
def updateUserByEmail (u : UserRow) (updates : List (String × String)) :
    Option UserRow :=
  if updates.isEmpty then none
  else if (stripRestricted updates).isEmpty then none
  else applySetClause u (stripRestricted updates)

/-! ### NotificationDeduper (claim C2)

The notification tables and `recordNotification` do not appear anywhere in
this version of the source; only the specification describes them
(spec.md §4.3).  The definitions below are therefore modelled from the
specification text. -/

/-- Modelled from the spec: a `NotificationRecord` row — {id: integer
identity, correlationId, hostname, fingerprint, createdAt: instant}
(spec.md §3); the source has no notifications table. -/
structure NotificationRecord where
  id : Nat
  correlationId : Int
  hostname : String
  fingerprint : String
  createdAt : Int
deriving DecidableEq, Repr

/-- Modelled from the spec: the notifications table, rows in insertion order
plus the identity counter; the source has no notifications table. -/
structure NotifDb where
  nextId : Nat
  rows : List NotificationRecord
deriving DecidableEq, Repr

/-- Milliseconds per UTC calendar day. -/
def msPerDay : Int := 24 * 60 * 60 * 1000

/-- Modelled from the spec: membership of an instant in the current UTC
calendar day — inclusive start, exclusive next-day start (spec.md §4.3
step 4), i.e. equal floor-division day indices. -/
def sameUtcDay (now t : Int) : Bool :=
  Int.fdiv t msPerDay = Int.fdiv now msPerDay

/-- Modelled from the spec: the most recent prior record for a fingerprint —
ordered by creation time descending, limit one (spec.md §4.3 step 2).
Later rows in insertion order win ties, matching a stable descending sort
read from an append-only table. -/
def mostRecentFor (fp : String) (rows : List NotificationRecord) :
    Option NotificationRecord :=
  rows.foldl
    (fun acc r =>
      if r.fingerprint = fp then
        match acc with
        | none => some r
        | some b => if b.createdAt ≤ r.createdAt then some r else some b
      else acc)
    none

/-- The rows for a fingerprint created within the current UTC day. -/
def todayRows (fp : String) (now : Int) (rows : List NotificationRecord) :
    List NotificationRecord :=
  rows.filter fun r => r.fingerprint = fp ∧ sameUtcDay now r.createdAt

/-- The number of rows stored for a fingerprint. -/
def fingerprintCount (fp : String) (rows : List NotificationRecord) : Nat :=
  (rows.filter fun r => r.fingerprint = fp).length

/-- A step of the dedup transaction at which a forced failure is injected:
step 1 = the prior-record read, step 2 = the insert, step 3 = the same-day
count. -/
def stepFails (fault : Option Nat) (step : Nat) : Bool :=
  fault = some step

/-- Modelled from the spec: the result of `recordNotification` — the final
database state and either a transaction error or the pair
`(previous, todayCount)` (spec.md §4.3). -/
structure RecordOutcome where
  db : NotifDb
  result : Except DbError (Option NotificationRecord × Nat)

/-- Modelled from the spec: `recordNotification(correlationId, hostname,
fingerprint)` — a single atomic transaction that reads the most recent
prior record, inserts the new occurrence with a server-assigned creation
time, and counts the same-UTC-day occurrences including the new row; if
any step fails the whole transaction rolls back (the database is left
exactly as before) and the error propagates (spec.md §4.3).  The source
has no such function; `fault` injects a failure into the named step. -/
def recordNotification (db : NotifDb) (correlationId : Int)
    (hostname fingerprint : String) (now : Int) (fault : Option Nat) :
    RecordOutcome :=
  if stepFails fault 1 then ⟨db, .error .storage⟩
  else
    let prev := mostRecentFor fingerprint db.rows
    if stepFails fault 2 then ⟨db, .error .storage⟩
    else
      let newRec : NotificationRecord :=
        ⟨db.nextId, correlationId, hostname, fingerprint, now⟩
      let committed : NotifDb := ⟨db.nextId + 1, db.rows ++ [newRec]⟩
      if stepFails fault 3 then ⟨db, .error .storage⟩
      else
        let todayCount := (todayRows fingerprint now committed.rows).length
        ⟨committed, .ok (prev, todayCount)⟩

/-! ### Sample data used by concrete witnesses and counterexamples -/

/-- A concrete log entry. -/
def sampleEntry : LogEntry :=
  ⟨"host1", 10, "console", "error", "boom", "metaText"⟩

/-- A second, distinct concrete log entry. -/
def sampleEntry2 : LogEntry :=
  ⟨"host2", 11, "errsole", "info", "started", "metaText2"⟩

/-- A store of `n` rows that are all expired against cutoff 0 (every
timestamp is -1), with identities 1..n. -/
def expiredStore (n : Nat) : List LogRow :=
  (List.range n).map fun i => ⟨i + 1, -1, sampleEntry⟩

/-- A concrete user row. -/
def sampleUser : UserRow :=
  ⟨"7", "alice", "alice@example.com", "pwhash", "admin"⟩

/-! ### Helper lemmas -/

theorem insertRows_map_entry (now : Int) :
    ∀ (es : List LogEntry) (n : Nat),
      (insertRows n now es).map LogRow.entry = es := by
  intro es
  induction es with
  | nil => intro n; rfl
  | cons e es ih => intro n; simp [insertRows, ih]

theorem insertRows_length (now : Int) :
    ∀ (es : List LogEntry) (n : Nat), (insertRows n now es).length = es.length := by
  intro es
  induction es with
  | nil => intro n; rfl
  | cons e es ih => intro n; simp [insertRows, ih]

theorem insertRows_map_id (now : Int) :
    ∀ (es : List LogEntry) (n : Nat),
      (insertRows n now es).map LogRow.id
        = (List.range es.length).map (fun i => n + i) := by
  intro es
  induction es with
  | nil => intro n; rfl
  | cons e es ih =>
    intro n
    simp [insertRows, ih, List.range_succ_eq_map, Nat.add_assoc, Nat.add_comm 1]

theorem insertRows_id_lower (now : Int) :
    ∀ (es : List LogEntry) (n : Nat) (r : LogRow),
      r ∈ insertRows n now es → n ≤ r.id := by
  intro es
  induction es with
  | nil => intro n r h; cases h
  | cons e es ih =>
    intro n r h
    rcases List.mem_cons.mp h with h1 | h2
    · subst h1; exact Nat.le_refl n
    · exact Nat.le_trans (Nat.le_succ n) (ih (n + 1) r h2)

theorem insertRows_pairwise (now : Int) :
    ∀ (es : List LogEntry) (n : Nat),
      (insertRows n now es).Pairwise (fun a b => a.id < b.id) := by
  intro es
  induction es with
  | nil => intro n; exact List.Pairwise.nil
  | cons e es ih =>
    intro n
    refine List.pairwise_cons.mpr ⟨?_, ih (n + 1)⟩
    intro r hr
    exact Nat.lt_of_lt_of_le (Nat.lt_succ_self n) (insertRows_id_lower now es (n + 1) r hr)

theorem flattenedValues_group :
    ∀ (es : List LogEntry) (i : Nat) (h : i < es.length),
      ((flattenedValues es).drop (6 * i)).take 6 = entryParams (es.get ⟨i, h⟩) := by
  intro es
  induction es with
  | nil => intro i h; exact absurd h (Nat.not_lt_zero i)
  | cons e es ih =>
    intro i h
    cases i with
    | zero =>
      show ((entryParams e ++ flattenedValues es).drop 0).take 6 = entryParams e
      rw [List.drop_zero, List.take_append_of_le_length (by simp [entryParams])]
      simp [entryParams]
    | succ j =>
      have hj : j < es.length := Nat.lt_of_succ_lt_succ h
      have hdrop : (entryParams e ++ flattenedValues es).drop (6 * (j + 1))
          = (flattenedValues es).drop (6 * j) := by
        have h6 : 6 * (j + 1) = (entryParams e).length + 6 * j := by
          simp [entryParams]; ring
        rw [h6, List.drop_append]
      show ((entryParams e ++ flattenedValues es).drop (6 * (j + 1))).take 6
          = entryParams ((e :: es).get ⟨j + 1, h⟩)
      rw [hdrop]
      exact ih j hj

theorem waitFrom_spec (ready : Nat → Bool) :
    ∀ (fuel t n : Nat), waitFrom ready t fuel = some n →
      t ≤ n ∧ ready n = true ∧ ∀ m, t ≤ m → m < n → ready m = false := by
  intro fuel
  induction fuel with
  | zero => intro t n h; cases h
  | succ fuel ih =>
    intro t n h
    by_cases hr : ready t = true
    · have : some t = some n := by simpa [waitFrom, hr] using h
      obtain rfl : t = n := Option.some.inj this
      exact ⟨Nat.le_refl t, hr, fun m hm1 hm2 => absurd (Nat.lt_of_le_of_lt hm1 hm2) (Nat.lt_irrefl t)⟩
    · have hrf : ready t = false := Bool.eq_false_iff.mpr hr
      have h2 : waitFrom ready (t + 1) fuel = some n := by
        simpa [waitFrom, hrf] using h
      obtain ⟨hle, hn, hbefore⟩ := ih (t + 1) n h2
      refine ⟨Nat.le_trans (Nat.le_succ t) hle, hn, ?_⟩
      intro m hm1 hm2
      rcases Nat.eq_or_lt_of_le hm1 with rfl | hm1'
      · exact hrf
      · exact hbefore m hm1' hm2

theorem removeFirstExpired_filter (cutoff : Int) :
    ∀ (rows : List LogRow) (k : Nat),
      (removeFirstExpired cutoff k rows).filter (expiredRow cutoff)
        = (rows.filter (expiredRow cutoff)).drop k := by
  intro rows
  induction rows with
  | nil => intro k; cases k <;> rfl
  | cons r rs ih =>
    intro k
    cases k with
    | zero => rfl
    | succ j =>
      by_cases hr : expiredRow cutoff r = true
      · simp [removeFirstExpired, hr, List.filter_cons, ih]
      · have hrf : expiredRow cutoff r = false := Bool.eq_false_iff.mpr hr
        simp [removeFirstExpired, hrf, List.filter_cons, ih]

theorem removeFirstExpired_sublist (cutoff : Int) :
    ∀ (rows : List LogRow) (k : Nat),
      List.Sublist (removeFirstExpired cutoff k rows) rows := by
  intro rows
  induction rows with
  | nil => intro k; cases k <;> exact List.Sublist.refl _
  | cons r rs ih =>
    intro k
    cases k with
    | zero => exact List.Sublist.refl _
    | succ j =>
      by_cases hr : expiredRow cutoff r = true
      · simp only [removeFirstExpired, hr, if_pos]
        exact List.Sublist.cons r (ih j)
      · have hrf : expiredRow cutoff r = false := Bool.eq_false_iff.mpr hr
        simp only [removeFirstExpired, hrf, Bool.false_eq_true, if_false]
        exact List.Sublist.cons₂ r (ih (j + 1))

theorem removeFirstExpired_of_allExpired (cutoff : Int) :
    ∀ (rows : List LogRow) (k : Nat),
      (∀ r ∈ rows, expiredRow cutoff r = true) →
      removeFirstExpired cutoff k rows = rows.drop k := by
  intro rows
  induction rows with
  | nil => intro k _; cases k <;> rfl
  | cons r rs ih =>
    intro k hall
    cases k with
    | zero => rfl
    | succ j =>
      have hr : expiredRow cutoff r = true := hall r (List.mem_cons_self r rs)
      have hrs : ∀ x ∈ rs, expiredRow cutoff x = true :=
        fun x hx => hall x (List.mem_cons_of_mem r hx)
      simp [removeFirstExpired, hr, ih j hrs]

theorem filter_of_allExpired (cutoff : Int) (rows : List LogRow)
    (hall : ∀ r ∈ rows, expiredRow cutoff r = true) :
    rows.filter (expiredRow cutoff) = rows :=
  List.filter_eq_self.mpr hall

/-- Numeric abstraction of the chunk loop on a store whose expired-row count
is `n`: the per-statement deleted counts. -/
def natChunksFuel : Nat → Nat → List Nat
  | 0, _ => []
  | fuel + 1, n =>
    if n = 0 then [0] else min 1000 n :: natChunksFuel fuel (n - 1000)

theorem natChunksFuel_succ (fuel n : Nat) :
    natChunksFuel (fuel + 1) n =
      if n = 0 then [0] else min 1000 n :: natChunksFuel fuel (n - 1000) := rfl

theorem sweepLoopFuel_succ (cutoff : Int) (fuel : Nat) (rows : List LogRow) :
    sweepLoopFuel cutoff (fuel + 1) rows =
      if (chunkDeleted cutoff rows).isEmpty then [chunkDeleted cutoff rows]
      else chunkDeleted cutoff rows
        :: sweepLoopFuel cutoff fuel (removeFirstExpired cutoff 1000 rows) := rfl

theorem sweepLoopFuel_allExpired (cutoff : Int) :
    ∀ (fuel : Nat) (rows : List LogRow),
      (∀ r ∈ rows, expiredRow cutoff r = true) →
      (sweepLoopFuel cutoff fuel rows).map List.length
        = natChunksFuel fuel rows.length := by
  intro fuel
  induction fuel with
  | zero => intro rows _; rfl
  | succ fuel ih =>
    intro rows hall
    have hfilter : rows.filter (expiredRow cutoff) = rows :=
      filter_of_allExpired cutoff rows hall
    have hd : chunkDeleted cutoff rows = rows.take 1000 := by
      unfold chunkDeleted; rw [hfilter]
    by_cases hnil : rows = []
    · subst hnil; rfl
    · have hne : rows.length ≠ 0 := fun h => hnil (List.length_eq_zero.mp h)
      have htake : rows.take 1000 ≠ [] := by
        rw [Ne, List.take_eq_nil_iff]
        rintro (h | h)
        · exact absurd h (by decide)
        · exact hnil h
      have hdne : (chunkDeleted cutoff rows).isEmpty = false := by
        rw [hd]
        cases he : (rows.take 1000).isEmpty
        · rfl
        · exact absurd (List.isEmpty_iff.mp he) htake
      have hrem : removeFirstExpired cutoff 1000 rows = rows.drop 1000 :=
        removeFirstExpired_of_allExpired cutoff rows 1000 hall
      have hall2 : ∀ r ∈ rows.drop 1000, expiredRow cutoff r = true :=
        fun r hr => hall r (List.mem_of_mem_drop hr)
      calc (sweepLoopFuel cutoff (fuel + 1) rows).map List.length
          = (chunkDeleted cutoff rows
              :: sweepLoopFuel cutoff fuel (removeFirstExpired cutoff 1000 rows)).map
                List.length := by
            rw [sweepLoopFuel_succ, if_neg (by simp [hdne])]
        _ = (rows.take 1000).length
              :: (sweepLoopFuel cutoff fuel (rows.drop 1000)).map List.length := by
            rw [hd, hrem, List.map_cons]
        _ = min 1000 rows.length :: natChunksFuel fuel (rows.length - 1000) := by
            rw [List.length_take, ih (rows.drop 1000) hall2, List.length_drop]
        _ = natChunksFuel (fuel + 1) rows.length := by
            rw [natChunksFuel_succ, if_neg hne]

theorem sweepLoopFuel_flatten (cutoff : Int) :
    ∀ (fuel : Nat) (rows : List LogRow),
      (rows.filter (expiredRow cutoff)).length < fuel →
      (sweepLoopFuel cutoff fuel rows).flatten = rows.filter (expiredRow cutoff) := by
  intro fuel
  induction fuel with
  | zero => intro rows h; exact absurd h (Nat.not_lt_zero _)
  | succ fuel ih =>
    intro rows hlen
    by_cases hF : rows.filter (expiredRow cutoff) = []
    · have hde : (chunkDeleted cutoff rows).isEmpty = true := by
        unfold chunkDeleted; rw [hF]; rfl
      rw [sweepLoopFuel_succ, if_pos hde]
      unfold chunkDeleted
      rw [hF]
      rfl
    · have hFpos : 1 ≤ (rows.filter (expiredRow cutoff)).length :=
        Nat.one_le_iff_ne_zero.mpr fun h => hF (List.length_eq_zero.mp h)
      have htake : (rows.filter (expiredRow cutoff)).take 1000 ≠ [] := by
        rw [Ne, List.take_eq_nil_iff]
        rintro (h | h)
        · exact absurd h (by decide)
        · exact hF h
      have hde : (chunkDeleted cutoff rows).isEmpty = false := by
        unfold chunkDeleted
        cases he : ((rows.filter (expiredRow cutoff)).take 1000).isEmpty
        · rfl
        · exact absurd (List.isEmpty_iff.mp he) htake
      have hrem : ((removeFirstExpired cutoff 1000 rows).filter (expiredRow cutoff)).length
          < fuel := by
        rw [removeFirstExpired_filter, List.length_drop]
        omega
      rw [sweepLoopFuel_succ, if_neg (by simp [hde])]
      rw [List.flatten_cons, ih (removeFirstExpired cutoff 1000 rows) hrem,
        removeFirstExpired_filter]
      unfold chunkDeleted
      exact List.take_append_drop 1000 (rows.filter (expiredRow cutoff))

theorem sweepChunks_flatten (cutoff : Int) (rows : List LogRow) :
    (sweepChunks cutoff rows).flatten = rows.filter (expiredRow cutoff) := by
  unfold sweepChunks
  refine sweepLoopFuel_flatten cutoff (rows.length + 1) rows ?_
  have := (List.filter_sublist (p := expiredRow cutoff) rows).length_le
  omega

/-! ### Claim theorems -/

/-- C1 counterexample: the claim says `postLogs` never propagates an error
and returns without issuing any database statement.  At a concrete input
with a failing driver, `postLogs` rejects with the database error and has
issued one statement. -/
theorem c1_counterexample :
    (postLogsRun emptyLogsDb [sampleEntry] 0 (some DbError.storage)).result
      = Except.error DbError.storage ∧
    (postLogsRun emptyLogsDb [sampleEntry] 0 (some DbError.storage)).dbStatements ≠ 0 :=
  ⟨rfl, by decide⟩

/-- C1 (amended): `postLogs` issues exactly one multi-row insert statement
per call and awaits it; on driver success the entries are stored, on driver
error the error is propagated to the caller and the table is unchanged —
there is no in-memory buffering. -/
theorem c1_amended (db : LogsDb) (entries : List LogEntry) (now : Int)
    (runErr : Option DbError) :
    (postLogsRun db entries now runErr).dbStatements = 1 ∧
    (runErr = none →
      (postLogsRun db entries now runErr).result = Except.ok () ∧
      (postLogsRun db entries now runErr).db = postLogsApply db entries now) ∧
    (∀ e, runErr = some e →
      (postLogsRun db entries now runErr).result = Except.error e ∧
      (postLogsRun db entries now runErr).db = db) := by
  cases runErr <;> simp [postLogsRun]

/-- C1 witness: the amended theorem at a concrete successful call. -/
theorem c1_witness :
    (postLogsRun emptyLogsDb [sampleEntry] 0 none).dbStatements = 1 ∧
    (postLogsRun emptyLogsDb [sampleEntry] 0 none).db
      = postLogsApply emptyLogsDb [sampleEntry] 0 := by
  have h := c1_amended emptyLogsDb [sampleEntry] 0 none
  exact ⟨h.1, (h.2.1 rfl).2⟩

/-- C4 counterexample: the claim says colliding rows are silently skipped
(insert-or-ignore), making redelivery idempotent.  Redelivering the same
entry stores it a second time (two rows with identical payload), and the
statement text does not begin with INSERT OR IGNORE. -/
theorem c4_counterexample :
    ((postLogsApply (postLogsApply emptyLogsDb [sampleEntry] 5) [sampleEntry] 5).rows.map
      LogRow.entry) = [sampleEntry, sampleEntry] ∧
    (postLogsApply (postLogsApply emptyLogsDb [sampleEntry] 5) [sampleEntry] 5).rows.length
      = 2 ∧
    (postLogsQuery [sampleEntry]).toList.take 16 ≠ "INSERT OR IGNORE".toList := by
  refine ⟨rfl, rfl, ?_⟩
  decide

/-- C4 (amended): the flush issues a plain multi-row INSERT (its text begins
with INSERT INTO, not INSERT OR IGNORE); every delivered entry is stored as
a fresh row — nothing is skipped — so a redelivered batch adds duplicate
rows rather than being ignored, and a statement error is propagated to the
caller (per the postLogs model). -/
theorem c4_amended (db : LogsDb) (entries : List LogEntry) (now : Int) :
    (postLogsApply db entries now).rows.length = db.rows.length + entries.length ∧
    (postLogsApply db entries now).rows.map LogRow.entry
      = db.rows.map LogRow.entry ++ entries ∧
    (postLogsQuery entries).toList.take 11 = "INSERT INTO".toList := by
  refine ⟨?_, ?_, ?_⟩
  · simp [postLogsApply, insertRows_length]
  · simp [postLogsApply, insertRows_map_entry]
  · have hsplit : (postLogsQuery entries).toList
        = ("INSERT INTO errsole_logs (hostname, pid, source, level, message, meta) VALUES "
            : String).toList ++ (placeholders entries).toList :=
      String.data_append _ _
    rw [hsplit, List.take_append_of_le_length (by decide)]
    decide

/-- C6 helper: the chunk counts of a sweep over 2500 expired rows. -/
theorem sweepChunkCounts_expiredStore2500 :
    sweepChunkCounts 0 (expiredStore 2500) = [1000, 1000, 500, 0] := by
  have hall : ∀ r ∈ expiredStore 2500, expiredRow 0 r = true := by
    intro r hr
    simp only [expiredStore, List.mem_map, List.mem_range] at hr
    obtain ⟨i, -, rfl⟩ := hr
    rfl
  have hlen : (expiredStore 2500).length = 2500 := by
    simp [expiredStore]
  have h : sweepChunkCounts 0 (expiredStore 2500)
      = natChunksFuel ((expiredStore 2500).length + 1) 2500 := by
    unfold sweepChunkCounts sweepChunks
    rw [sweepLoopFuel_allExpired 0 ((expiredStore 2500).length + 1) (expiredStore 2500) hall,
      hlen]
  rw [h, hlen]
  rw [show (2500 + 1 : Nat) = 2500 + 1 from rfl, natChunksFuel_succ]
  norm_num
  rw [show (2500 : Nat) = 2499 + 1 from rfl, natChunksFuel_succ]
  norm_num
  rw [show (2499 : Nat) = 2498 + 1 from rfl, natChunksFuel_succ]
  norm_num
  rw [show (2498 : Nat) = 2497 + 1 from rfl, natChunksFuel_succ]
  norm_num

/-- C6 counterexample: the claim says a sweep over 2500 expired rows performs
exactly 3 delete chunks.  The do-while loop only stops after a chunk deletes
zero rows, so it performs 4 delete statements (1000, 1000, 500, 0). -/
theorem c6_counterexample :
    sweepChunkCounts 0 (expiredStore 2500) = [1000, 1000, 500, 0] ∧
    (sweepChunkCounts 0 (expiredStore 2500)).length ≠ 3 := by
  have h := sweepChunkCounts_expiredStore2500
  exact ⟨h, by rw [h]; decide⟩

/-- C6 (amended): a sweep over 2500 expired rows with chunk size 1000
performs exactly 4 delete statements, deleting 1000, 1000, 500 and 0 rows,
stopping after the first chunk that deletes zero rows; a sweep over a store
with 0 expired rows performs exactly 1 chunk that deletes 0 rows and
stops. -/
theorem c6_amended :
    sweepChunkCounts 0 (expiredStore 2500) = [1000, 1000, 500, 0] ∧
    (sweepChunkCounts 0 (expiredStore 2500)).length = 4 ∧
    sweepChunkCounts 0 [] = [0] := by
  have h := sweepChunkCounts_expiredStore2500
  exact ⟨h, by rw [h]; rfl, rfl⟩

/-- C8 counterexample: the claim says an unparsable stored TTL falls back to
the hardcoded default so the sweep proceeds with a valid cutoff.  With the
stored value "abc", `parseInt` yields NaN (not the default), and the sweep
over a store with three expired rows aborts in its catch path, issuing no
delete statement and deleting nothing. -/
theorem c8_counterexample :
    sweepTTL (some "abc") = none ∧
    sweepTTL (some "abc") ≠ some logsTTLDefault ∧
    (deleteExpiredLogs ⟨false, some "abc", expiredStore 3, none⟩ 0).deleteStatements = 0 ∧
    (deleteExpiredLogs ⟨false, some "abc", expiredStore 3, none⟩ 0).errored = true ∧
    (deleteExpiredLogs ⟨false, some "abc", expiredStore 3, none⟩ 0).rows
      = expiredStore 3 := by
  refine ⟨rfl, by decide, by decide, by decide, by decide⟩

/-- C8 (amended): when the logsTTL setting is absent or its stored value is
the empty string, the sweep uses the hardcoded 30-day default; when the
value is present, non-empty and has a parsable leading integer, the sweep
uses that parsed value; but when the value is present, non-empty and
unparsable, `parseInt` yields NaN, the cutoff computation throws, and the
sweep aborts in its catch path with zero delete statements (error swallowed,
flag cleared) — it does not fall back to the default. -/
theorem c8_amended (config : Option String) (now : Int) (rows : List LogRow) :
    (config = none → sweepTTL config = some logsTTLDefault) ∧
    (config = some "" → sweepTTL config = some logsTTLDefault) ∧
    (∀ v k, config = some v → v ≠ "" → parseIntJs v = some k →
      sweepTTL config = some k) ∧
    (∀ v, config = some v → v ≠ "" → parseIntJs v = none →
      sweepTTL config = none ∧
      (deleteExpiredLogs ⟨false, config, rows, none⟩ now).deleteStatements = 0 ∧
      (deleteExpiredLogs ⟨false, config, rows, none⟩ now).errored = true ∧
      (deleteExpiredLogs ⟨false, config, rows, none⟩ now).running = false ∧
      (deleteExpiredLogs ⟨false, config, rows, none⟩ now).rows = rows) := by
  refine ⟨?_, ?_, ?_, ?_⟩
  · rintro rfl; rfl
  · rintro rfl; rfl
  · rintro v k rfl hne hp
    simp [sweepTTL, hne, hp]
  · rintro v rfl hne hp
    have httl : sweepTTL (some v) = none := by simp [sweepTTL, hne, hp]
    refine ⟨httl, ?_, ?_, ?_, ?_⟩ <;>
      simp [deleteExpiredLogs, httl]

/-- C8 witness: the amended theorem at concrete configurations. -/
theorem c8_witness :
    sweepTTL none = some logsTTLDefault ∧
    sweepTTL (some "2592000000") = some 2592000000 ∧
    (deleteExpiredLogs ⟨false, some "zzz", expiredStore 2, none⟩ 0).errored = true := by
  have h1 := (c8_amended none 0 []).1 rfl
  have h2 := (c8_amended (some "2592000000") 0 []).2.2.1 "2592000000" 2592000000 rfl
    (by decide) (by decide)
  have h3 := ((c8_amended (some "zzz") 0 (expiredStore 2)).2.2.2 "zzz" rfl
    (by decide) (by decide)).2.2.1
  exact ⟨h1, h2, h3⟩

/-- C10 counterexample: the claim says no updates object can modify the
stored id or hashed_password.  The strip removes the exact keys "id" and
"hashed_password" only, while SQLite matches column names
case-insensitively, so the updates object with key "ID" survives the strip
and modifies the stored id. -/
theorem c10_counterexample :
    updateUserByEmail sampleUser [("ID", "99")]
      = some ⟨"99", "alice", "alice@example.com", "pwhash", "admin"⟩ ∧
    ("99" : String) ≠ sampleUser.id := by
  exact ⟨by decide, by decide⟩

/-- C10 helper: applying a SET clause whose keys never lower to a restricted
column name preserves id and hashed_password. -/
theorem applySetClause_preserves :
    ∀ (l : List (String × String)) (u u2 : UserRow),
      (∀ kv ∈ l, lowerAscii kv.1 ≠ "id" ∧ lowerAscii kv.1 ≠ "hashed_password") →
      applySetClause u l = some u2 →
      u2.id = u.id ∧ u2.hashed_password = u.hashed_password := by
  intro l
  induction l with
  | nil =>
    intro u u2 _ h
    cases h
    exact ⟨rfl, rfl⟩
  | cons kv rest ih =>
    obtain ⟨k, v⟩ := kv
    intro u u2 hall happ
    obtain ⟨hid, hhp⟩ := hall (k, v) (List.mem_cons_self _ _)
    have hrest : ∀ x ∈ rest, lowerAscii x.1 ≠ "id" ∧ lowerAscii x.1 ≠ "hashed_password" :=
      fun x hx => hall x (List.mem_cons_of_mem _ hx)
    simp only [applySetClause] at happ
    cases hset : setColumn u k v with
    | none =>
      rw [hset] at happ
      exact Option.noConfusion happ
    | some u1 =>
      rw [hset] at happ
      have hid2 : lowerAscii k ≠ "id" := hid
      have hhp2 : lowerAscii k ≠ "hashed_password" := hhp
      have hpres : u1.id = u.id ∧ u1.hashed_password = u.hashed_password := by
        unfold setColumn at hset
        rw [if_neg hid2] at hset
        by_cases hn : lowerAscii k = "name"
        · rw [if_pos hn] at hset; cases hset; exact ⟨rfl, rfl⟩
        · rw [if_neg hn] at hset
          by_cases he : lowerAscii k = "email"
          · rw [if_pos he] at hset; cases hset; exact ⟨rfl, rfl⟩
          · rw [if_neg he, if_neg hhp2] at hset
            by_cases hr : lowerAscii k = "role"
            · rw [if_pos hr] at hset; cases hset; exact ⟨rfl, rfl⟩
            · rw [if_neg hr] at hset; cases hset
      obtain ⟨h1, h2⟩ := ih u1 u2 hrest happ
      exact ⟨h1.trans hpres.1, h2.trans hpres.2⟩

/-- C10 (amended): `updateUserByEmail` strips exactly the case-sensitive
keys "id" and "hashed_password" before building the SET clause; for every
updates object whose keys are plain column identifiers and in which no key
names a restricted column in a different letter case (every key whose ASCII
lowering is "id" or "hashed_password" is exactly that lowercase name), the
stored id and hashed_password of the matched user are left unchanged,
whether the call succeeds or rejects. -/
theorem c10_amended (u : UserRow) (updates : List (String × String))
    (hkeys : ∀ kv ∈ updates,
      (lowerAscii kv.1 = "id" → kv.1 = "id") ∧
      (lowerAscii kv.1 = "hashed_password" → kv.1 = "hashed_password"))
    (u2 : UserRow) (h : updateUserByEmail u updates = some u2) :
    u2.id = u.id ∧ u2.hashed_password = u.hashed_password := by
  unfold updateUserByEmail at h
  split_ifs at h
  refine applySetClause_preserves (stripRestricted updates) u u2 ?_ h
  intro kv hkv
  have hmem : kv ∈ updates := List.mem_of_mem_filter hkv
  have hne : kv.1 ≠ "id" ∧ kv.1 ≠ "hashed_password" := by
    have := List.of_mem_filter hkv
    simpa using this
  obtain ⟨hk1, hk2⟩ := hkeys kv hmem
  exact ⟨fun hlo => hne.1 (hk1 hlo), fun hlo => hne.2 (hk2 hlo)⟩

/-- C10 witness: the amended theorem at a concrete update of the name
column. -/
theorem c10_witness :
    (⟨"7", "bob", "alice@example.com", "pwhash", "admin"⟩ : UserRow).id = sampleUser.id ∧
    (⟨"7", "bob", "alice@example.com", "pwhash", "admin"⟩ : UserRow).hashed_password
      = sampleUser.hashed_password :=
  c10_amended sampleUser [("name", "bob")] (by decide)
    ⟨"7", "bob", "alice@example.com", "pwhash", "admin"⟩ (by decide)

/-- C5: the retention sweep is guarded by the running flag — a call made
while the flag is already set issues zero queries (no config read, no
delete) and leaves the flag and the table unchanged; and every call that
does enter the sweep body, whatever the configuration, table contents or
injected statement failure, returns with the flag cleared (the finally
path), including the error paths. -/
theorem c5_reentrancyGuard (s : SweepIn) (now : Int) :
    (s.running = true →
      deleteExpiredLogs s now = ⟨s.running, s.rows, 0, 0, false⟩) ∧
    (s.running = false → (deleteExpiredLogs s now).running = false) := by
  constructor
  · intro h
    unfold deleteExpiredLogs
    rw [if_pos h]
  · intro h
    unfold deleteExpiredLogs
    rw [if_neg (by simp [h])]
    cases sweepTTL s.config <;> simp

/-- C5 witness: the guard theorem at a concrete already-running state and at
a concrete run whose first delete statement fails. -/
theorem c5_witness :
    deleteExpiredLogs ⟨true, some "5", expiredStore 2, none⟩ 0
      = ⟨true, expiredStore 2, 0, 0, false⟩ ∧
    (deleteExpiredLogs ⟨false, none, expiredStore 2, some 0⟩ 0).running = false :=
  ⟨(c5_reentrancyGuard ⟨true, some "5", expiredStore 2, none⟩ 0).1 rfl,
    (c5_reentrancyGuard ⟨false, none, expiredStore 2, some 0⟩ 0).2 rfl⟩

/-- C3: a flush issues no insert while schema initialisation is incomplete —
the polling loop sleeps a fixed 100 ms per round in which the flag is still
set, the insert is issued exactly at the first round at which the readiness
flag is observed true and at no earlier round, and the readiness flag
(`isConnectionInProgress = false`) is reached exactly when every
table-creation statement of `defineTables` has succeeded. -/
theorem c3_schemaGate (ready : Nat → Bool) (fuel n : Nat)
    (h : postLogsInsertRound ready fuel = some n) :
    ready n = true ∧
    (∀ m, m < n → ready m = false) ∧
    postLogsSleepMs ready fuel = some (100 * n) ∧
    (∀ t, t < n → insertIssuedBy ready fuel t = false) ∧
    insertIssuedBy ready fuel n = true ∧
    (∀ results, isConnectionInProgressAfter results = false ↔
      defineTablesSucceeds results = true) := by
  obtain ⟨-, hn, hbef⟩ := waitFrom_spec ready fuel 0 n h
  refine ⟨hn, fun m hm => hbef m (Nat.zero_le m) hm, ?_, ?_, ?_, ?_⟩
  · unfold postLogsSleepMs
    rw [h]
    rfl
  · intro t ht
    unfold insertIssuedBy
    rw [h]
    simp only [decide_eq_false_iff_not]
    omega
  · unfold insertIssuedBy
    rw [h]
    simp
  · intro results
    unfold isConnectionInProgressAfter
    cases defineTablesSucceeds results <;> simp

/-- C3 witness: the gate theorem on a readiness flag that becomes true at
poll round 2. -/
theorem c3_witness :
    (fun t => decide (2 ≤ t)) 2 = true ∧
    insertIssuedBy (fun t => decide (2 ≤ t)) 5 1 = false ∧
    postLogsSleepMs (fun t => decide (2 ≤ t)) 5 = some (100 * 2) := by
  have h := c3_schemaGate (fun t => decide (2 ≤ t)) 5 2 rfl
  exact ⟨h.1, h.2.2.2.1 1 (by decide), h.2.2.1⟩

/-- C7: a flushed batch preserves caller-submission order — the rows a flush
appends to the table carry exactly the submitted entries in the order
given, their identities are `nextId, nextId + 1, ...` assigned in that same
order (hence strictly increasing), and the i-th parameter group of the
multi-row statement holds exactly the six column values of the i-th entry. -/
theorem c7_orderPreserved (db : LogsDb) (entries : List LogEntry) (now : Int)
    (i : Nat) (h : i < entries.length) :
    ((postLogsApply db entries now).rows.drop db.rows.length).map LogRow.entry
      = entries ∧
    ((postLogsApply db entries now).rows.drop db.rows.length).map LogRow.id
      = (List.range entries.length).map (fun k => db.nextId + k) ∧
    ((postLogsApply db entries now).rows.drop db.rows.length).Pairwise
      (fun a b => a.id < b.id) ∧
    ((flattenedValues entries).drop (6 * i)).take 6
      = entryParams (entries.get ⟨i, h⟩) := by
  have hdrop : (postLogsApply db entries now).rows.drop db.rows.length
      = insertRows db.nextId now entries := by
    simp [postLogsApply]
  rw [hdrop]
  exact ⟨insertRows_map_entry now entries db.nextId,
    insertRows_map_id now entries db.nextId,
    insertRows_pairwise now entries db.nextId,
    flattenedValues_group entries i h⟩

/-- C7 witness: the order theorem on a two-entry batch against an empty
table. -/
theorem c7_witness :
    ((flattenedValues [sampleEntry, sampleEntry2]).drop (6 * 1)).take 6
      = entryParams sampleEntry2 ∧
    ((postLogsApply emptyLogsDb [sampleEntry, sampleEntry2] 0).rows.drop 0).map
      LogRow.id = [1, 2] := by
  have h := c7_orderPreserved emptyLogsDb [sampleEntry, sampleEntry2] 0 1 (by decide)
  refine ⟨h.2.2.2, ?_⟩
  have h2 := h.2.1
  simpa using h2

/-- C9: within one sweep, rows are deleted in ascending identity order —
given a table whose rows are sorted by identity (the insertion invariant),
the concatenation of the per-chunk deleted rows is exactly the expired rows
in table order, and any row deleted in an earlier chunk has a strictly
smaller identity than any row deleted in a later chunk, so a row with a
smaller identity is deleted in the same or an earlier chunk than one with a
larger identity. -/
theorem c9_ascendingDeletes (cutoff : Int) (rows : List LogRow)
    (hsort : rows.Pairwise (fun a b => a.id < b.id)) :
    (sweepChunks cutoff rows).flatten = rows.filter (expiredRow cutoff) ∧
    (∀ (i j : Nat) (hi : i < (sweepChunks cutoff rows).length)
        (hj : j < (sweepChunks cutoff rows).length), i < j →
      ∀ r ∈ (sweepChunks cutoff rows).get ⟨i, hi⟩,
        ∀ s ∈ (sweepChunks cutoff rows).get ⟨j, hj⟩, r.id < s.id) := by
  have hflat := sweepChunks_flatten cutoff rows
  refine ⟨hflat, ?_⟩
  have hpair : (sweepChunks cutoff rows).flatten.Pairwise (fun a b => a.id < b.id) := by
    rw [hflat]
    exact hsort.sublist (List.filter_sublist rows)
  have hchunks := (List.pairwise_flatten.mp hpair).2
  intro i j hi hj hij r hr s hs
  exact List.pairwise_iff_getElem.mp hchunks i j hi hj hij r hr s hs

/-- C9 witness: the ordering theorem on a sorted three-row table with two
expired rows. -/
theorem c9_witness :
    (sweepChunks 0 [⟨1, -5, sampleEntry⟩, ⟨2, 10, sampleEntry⟩,
      ⟨3, -7, sampleEntry2⟩]).flatten
      = [⟨1, -5, sampleEntry⟩, ⟨3, -7, sampleEntry2⟩] := by
  have h := c9_ascendingDeletes 0
    [⟨1, -5, sampleEntry⟩, ⟨2, 10, sampleEntry⟩, ⟨3, -7, sampleEntry2⟩] (by decide)
  rw [h.1]
  decide

/-- C2 helper: appending a matching same-day record grows the same-day list
by exactly one. -/
theorem todayRows_append_same (fp : String) (now : Int)
    (rows : List NotificationRecord) (r : NotificationRecord)
    (hfp : r.fingerprint = fp) (hd : sameUtcDay now r.createdAt = true) :
    (todayRows fp now (rows ++ [r])).length = (todayRows fp now rows).length + 1 := by
  unfold todayRows
  rw [List.filter_append]
  simp [hfp, hd]

/-- C2: the notification-dedup transaction is atomic — whenever any step
fails, the store is left exactly as before the call (in particular the row
count for the fingerprint is unchanged; no fragment of the insert survives) and the
error is propagated as the result; on success, `previous` is the most
recent prior record, the new row is stored, and `todayCount` equals the
pre-call same-UTC-day count plus one, counting the row just inserted. -/
theorem c2_recordAtomic (db : NotifDb) (cid : Int) (hn fp : String) (now : Int)
    (fault : Option Nat) :
    (∀ e, (recordNotification db cid hn fp now fault).result = Except.error e →
      (recordNotification db cid hn fp now fault).db = db ∧
      fingerprintCount fp (recordNotification db cid hn fp now fault).db.rows
        = fingerprintCount fp db.rows) ∧
    (∀ prev c, (recordNotification db cid hn fp now fault).result
        = Except.ok (prev, c) →
      c = (todayRows fp now db.rows).length + 1 ∧
      prev = mostRecentFor fp db.rows ∧
      (⟨db.nextId, cid, hn, fp, now⟩ : NotificationRecord)
        ∈ (recordNotification db cid hn fp now fault).db.rows ∧
      sameUtcDay now now = true) := by
  unfold recordNotification
  split_ifs with h1 h2 h3
  · exact ⟨fun e _ => ⟨rfl, rfl⟩, fun prev c hc => hc.elim⟩
  · exact ⟨fun e _ => ⟨rfl, rfl⟩, fun prev c hc => hc.elim⟩
  · exact ⟨fun e _ => ⟨rfl, rfl⟩, fun prev c hc => hc.elim⟩
  · refine ⟨fun e he => he.elim, ?_⟩
    intro prev c hc
    obtain ⟨h4, h5⟩ := Prod.mk.injEq .. ▸ Except.ok.inj hc
    constructor
    · rw [← h5]
      exact todayRows_append_same fp now db.rows ⟨db.nextId, cid, hn, fp, now⟩ rfl
        (by simp [sameUtcDay])
    · refine ⟨h4.symm, ?_, by simp [sameUtcDay]⟩
      simp

/-- C2 witness: the atomicity theorem at a concrete failing count step and a
concrete successful call on an empty store. -/
theorem c2_witness :
    (recordNotification ⟨1, []⟩ 5 "h" "fp" 0 (some 3)).db = (⟨1, []⟩ : NotifDb) ∧
    (1 : Nat) = (todayRows "fp" 0 ([] : List NotificationRecord)).length + 1 := by
  have h1 := (c2_recordAtomic ⟨1, []⟩ 5 "h" "fp" 0 (some 3)).1 DbError.storage rfl
  have h2 := (c2_recordAtomic ⟨1, []⟩ 5 "h" "fp" 0 none).2 none 1 rfl
  exact ⟨h1.1, h2.1⟩

end ErrsoleSQLite
